import Mathlib

/-!
Verification of the Analyzer repository's analysis/decision core.

The Python sources are shallowly embedded over `ℚ`:
  * `smart_auto.py`   : `decide_smart_params`, `build_smart_chain`
  * `bot.py`          : `decide_params_from_analysis`, `build_chain_from_params`,
                        `_extract_last_json_block`, `_force_print_format_json`,
                        `ffmpeg_loudnorm_two_pass`
  * `auto_analysis.py`: the stereo-width / LRA / true-peak fragments of `analyze_file`
  * `analyze_mastering.py` : `true_peak_dbfs`, `integrated_loudness_lufs`,
                        `loudness_range_lra`

External collaborators (pyloudnorm's meter, librosa's resampler, numpy's
`log10` and Pearson routine, `json.loads`) are modelled as function
parameters: the embedded repository code adds no behaviour of its own to
them.  NumPy floats are modelled as rationals; `np.interp`, `np.clip`,
`np.percentile` (linear interpolation) and Python `round(x, n)` are embedded
below.  Python's `round` uses round-half-to-even on binary floats while
`round` on `ℚ` is round-half-up; no theorem below depends on tie behaviour.
-/

namespace Analyzer

/-- `np.clip(x, lo, hi)`: `min(max(x, lo), hi)`. -/
def npClip (x lo hi : ℚ) : ℚ := min (max x lo) hi

/-- `np.interp(x, xp, fp)` over the point list `pts = zip xp fp`, with the
`xp` strictly increasing: constant extrapolation at both ends, linear
interpolation between consecutive control points. -/
def npInterp (x : ℚ) : List (ℚ × ℚ) → ℚ
  | [] => 0
  | [(_, b)] => b
  | (a₁, b₁) :: (a₂, b₂) :: rest =>
    if x ≤ a₁ then b₁
    else if x ≤ a₂ then b₁ + (x - a₁) * (b₂ - b₁) / (a₂ - a₁)
    else npInterp x ((a₂, b₂) :: rest)

/-- Python `round(x, 2)` on a rational: nearest multiple of `1/100`. -/
def round2 (x : ℚ) : ℚ := ((round (100 * x) : ℤ) : ℚ) / 100

/-- Python `round(x, 1)` on a rational: nearest multiple of `1/10`. -/
def round1 (x : ℚ) : ℚ := ((round (10 * x) : ℤ) : ℚ) / 10

/-- The analysis dict returned by `auto_analysis.analyze_file`
(keys `LUFS`, `LRA`, `TruePeak_dBFS`, `RMS_dB`, `Tilt_dB`, `SubExcess`,
`StereoWidth`, `StereoNarrow`). -/
structure Analysis where
  LUFS : ℚ
  LRA : ℚ
  TruePeak_dBFS : ℚ
  RMS_dB : ℚ
  Tilt_dB : ℚ
  SubExcess : Bool
  StereoWidth : ℚ
  StereoNarrow : Bool

/-- A shelving-EQ parameter set (`{"g": .., "f": .., "width": ..}`). -/
structure Shelf where
  g : ℚ
  f : ℚ
  width : ℚ
deriving DecidableEq

/-- The `tone` dict: optional shelf entries plus the high-pass flag. -/
structure Tone where
  low_shelf : Option Shelf
  high_shelf : Option Shelf
  hpf : Bool

/-- The `comp` dict.  The source key `ratio` is embedded as `ratioQ`. -/
structure Comp where
  ratioQ : ℚ
  threshold_db : ℚ
  attack : ℚ
  release : ℚ
deriving DecidableEq

/-- The `loudnorm` dict of target values. -/
structure Loudnorm where
  I : ℚ
  TP : ℚ
  LRA : ℚ
deriving DecidableEq

/-- Result of `smart_auto.decide_smart_params`. -/
structure SmartParams where
  loudnorm : Loudnorm
  tone : Tone
  comp : Comp
  stereo_widen : Bool

/-- Result of `bot.decide_params_from_analysis` (no stereo-widen key). -/
structure BotParams where
  loudnorm : Loudnorm
  tone : Tone
  comp : Comp

/-- `smart_auto.decide_smart_params` (smart_auto.py lines 6-82). -/
def decide_smart_params (a : Analysis) : SmartParams :=
  let I := a.LUFS
  let LRA := a.LRA
  let tp := a.TruePeak_dBFS
  let tilt := npClip a.Tilt_dB (-20) 20
  let target_I :=
    npClip (npInterp I [(-30, -18), (-22, -16), (-16, -14.5), (-12, -13), (-10, -12)])
      (-16.5) (-11.5)
  let target_LRA := npClip (if LRA ≥ 20 then 8 else if LRA ≥ 10 then 6 else 5) 4 10
  let target_TP := npClip (if tp ≥ -0.1 then -1 else -0.5) (-3) 0
  let high_shelf_gain := npInterp tilt [(-20, 3), (0, 0), (20, -3)]
  let low_shelf_gain := npInterp tilt [(-20, -2.5), (0, 0), (20, 2)]
  let tone : Tone :=
    { low_shelf := some ⟨round2 low_shelf_gain, 250, 1⟩
      high_shelf := some ⟨round2 high_shelf_gain, 8000, 0.8⟩
      hpf := a.SubExcess }
  let rms_db := a.RMS_dB
  let rc : ℚ × ℚ :=
    if LRA ≥ 15 ∨ rms_db < -24 then (1.3, rms_db + 6)
    else if LRA ≥ 8 ∧ rms_db < -20 then (1.5, rms_db + 4)
    else if rms_db < -16 then (1.8, rms_db + 2)
    else (2.0, rms_db + 0)
  { loudnorm := ⟨round2 target_I, target_TP, target_LRA⟩
    tone := tone
    comp := ⟨round2 rc.1, round1 rc.2, 20, 150⟩
    stereo_widen := a.StereoNarrow }

/-- The analysis dict returned by `bot.analyze_track_pro`. -/
structure AnalysisPro where
  I : ℚ
  rms_db : ℚ
  tp_dbfs : ℚ
  tilt : ℚ
  sub_excess : Bool

/-- `bot.decide_params_from_analysis` (bot.py lines 140-166). -/
def decide_params_from_analysis (A : AnalysisPro) : BotParams :=
  let tilt := npClip A.tilt (-4) 4
  let target_I :=
    npClip (npInterp A.I [(-22, -16), (-16, -14.5), (-12, -13), (-10, -12)]) (-16.5) (-12)
  let target_TP : ℚ := -1.2
  let target_LRA : ℚ := 6.0
  let high_g := npInterp tilt [(-4, 2.5), (0, 0), (4, -2.5)]
  let low_g := npInterp tilt [(-4, -1.5), (0, 0), (4, 1)]
  let rc : ℚ × ℚ :=
    if A.rms_db < -24 then (1.4, A.rms_db + 6)
    else if A.rms_db < -20 then (1.6, A.rms_db + 4)
    else if A.rms_db < -16 then (1.8, A.rms_db + 2)
    else (2.2, A.rms_db + 1)
  { loudnorm := ⟨round2 target_I, target_TP, target_LRA⟩
    tone :=
      { low_shelf := some ⟨round2 low_g, 250, 1⟩
        high_shelf := some ⟨round2 high_g, 6500, 0.8⟩
        hpf := A.sub_excess }
    comp := ⟨round2 rc.1, round1 rc.2, 20, 180⟩ }

/-- Mean of a rational list (`np.mean`; division by zero yields `0` on `ℚ`,
matching no claim's use on an empty list). -/
def meanQ (l : List ℚ) : ℚ := l.sum / l.length

/-- `np.max(np.abs(x))` over a list, with `0` for the empty list (the sources
only apply it to nonempty data, where `|·| ≥ 0` makes the base irrelevant). -/
def maxAbs (l : List ℚ) : ℚ := l.foldr (fun a m => max |a| m) 0

/-- `np.percentile(l, q)` with the default linear interpolation: with `s` the
sorted data and `h = (n-1)·q/100`, the value `s[⌊h⌋] + (h-⌊h⌋)·(s[⌊h⌋+1]-s[⌊h⌋])`
(the upper index clamped to `n-1`). -/
def percentile (l : List ℚ) (q : ℚ) : ℚ :=
  let s := l.mergeSort (fun a b => decide (a ≤ b))
  let n := l.length
  if n = 0 then 0
  else
    let h : ℚ := (n - 1) * q / 100
    let lo := (⌊h⌋).toNat
    let hi := min (lo + 1) (n - 1)
    let a := s.getD lo 0
    let b := s.getD hi 0
    a + (h - lo) * (b - a)

/-- `analyze_mastering.integrated_loudness_lufs` (lines 26-28): a bare call
into the external pyloudnorm meter (modelled as `meterI`, taking the sample
rate and the buffer); the repository adds no error handling and no default. -/
def integrated_loudness_lufs (meterI : ℕ → List ℚ → Except Unit ℚ) (x : List ℚ) (sr : ℕ) :
    Except Unit ℚ :=
  meterI sr x

/-- The `I` used for the relative gate inside
`analyze_mastering.loudness_range_lra` (lines 38-41): the meter's integrated
loudness, with any failure caught and replaced by the `-23.0` default. -/
def lraGateI (meterI : ℕ → List ℚ → Except Unit ℚ) (x : List ℚ) (sr : ℕ) : ℚ :=
  match meterI sr x with
  | Except.ok v => v
  | Except.error _ => -23

/-- The window start offsets of the `while i + win <= len(x)` loop with step
`hop` (empty when `hop = 0`, where the Python loop would not terminate; all
theorems assume `0 < sr`). -/
def windowStarts (n win hop : ℕ) : List ℕ :=
  if hop = 0 ∨ n < win then [] else (List.range ((n - win) / hop + 1)).map (· * hop)

/-- The short-term loudness list of `analyze_mastering.loudness_range_lra`
(lines 43-55): each 3 s window (1 s hop) is measured with the external meter,
failures being skipped. -/
def lraShortTerms (meterI : ℕ → List ℚ → Except Unit ℚ) (x : List ℚ) (sr : ℕ) : List ℚ :=
  (windowStarts x.length (3 * sr) sr).filterMap
    (fun i => (meterI sr ((x.drop i).take (3 * sr))).toOption)

/-- `analyze_mastering.loudness_range_lra` (lines 30-70). -/
def loudness_range_lra (meterI : ℕ → List ℚ → Except Unit ℚ) (x : List ℚ) (sr : ℕ) : ℚ :=
  let I := lraGateI meterI x sr
  let sts := lraShortTerms meterI x sr
  if sts = [] then 0
  else
    let gated := sts.filter (fun v => decide (I - 20 < v))
    let gated := if gated.length < 3 then sts else gated
    max 0 (percentile gated 95 - percentile gated 10)

/-- The LRA fragment of `auto_analysis.analyze_file` (lines 60-86): stereo
windows whose peak amplitude is below `1e-6` are skipped, the remaining ones
are measured by the external meter (`meterSeg`, no error handling here), and
the result is the bare `p95 - p10` (no gate, no `max 0`). -/
def auto_lra (meterSeg : List ℚ → List ℚ → ℚ) (yL yR : List ℚ) (sr : ℕ) : ℚ :=
  let n := yL.length
  let win := 3 * sr
  if n < win then 0
  else
    let short_terms := (windowStarts n win sr).filterMap (fun s =>
      let segL := (yL.drop s).take win
      let segR := (yR.drop s).take win
      if max (maxAbs segL) (maxAbs segR) < 1 / 1000000 then none
      else some (meterSeg segL segR))
    if short_terms = [] then 0
    else percentile short_terms 95 - percentile short_terms 10

/-- `analyze_mastering.true_peak_dbfs` (lines 20-24): resample to `4·sr`
through the external resampler (librosa, `kaiser_best`), then
`20·log10(max |·| + 1e-12)`.  `log10f` models `np.log10`. -/
def true_peak_dbfs (resample : List ℚ → ℕ → ℕ → List ℚ) (log10f : ℚ → ℚ)
    (x : List ℚ) (sr : ℕ) : ℚ :=
  let target_sr := sr * 4
  let x_os := resample x sr target_sr
  20 * log10f (maxAbs x_os + 1 / 1000000000000)

/-- The true-peak fragment of `auto_analysis.analyze_file` (lines 90-91):
`20·log10(max |y| + 1e-12)` over the original samples of both channels —
no oversampling is involved. -/
def auto_true_peak_dbfs (log10f : ℚ → ℚ) (yL yR : List ℚ) : ℚ :=
  20 * log10f (max (maxAbs yL) (maxAbs yR) + 1 / 1000000000000)

/-- Population variance (`np.std(l)**2`).  The source condition
`np.std(l) < 1e-6` is embedded as `popVar l < 1e-12`, which is equivalent
since both sides of the original comparison are nonnegative. -/
def popVar (l : List ℚ) : ℚ := meanQ (l.map (fun v => (v - meanQ l) ^ 2))

/-- The stereo-width fragment of `auto_analysis.analyze_file` (lines 43-55):
returns `(corr, width_ratio, stereo_narrow)`.  `pearson` models
`np.corrcoef(L,R)[0,1]`. -/
def stereoAnalysis (pearson : List ℚ → List ℚ → ℚ) (L R : List ℚ) : ℚ × ℚ × Bool :=
  let corr := if popVar L < 1 / 1000000000000 ∨ popVar R < 1 / 1000000000000
    then 1 else pearson L R
  let mid := List.zipWith (fun a b => (a + b) / 2) L R
  let side := List.zipWith (fun a b => (a - b) / 2) L R
  let mid_energy := meanQ (mid.map (fun v => v ^ 2))
  let side_energy := meanQ (side.map (fun v => v ^ 2))
  let width_ratio := side_energy / (mid_energy + 1 / 1000000000000)
  let stereo_narrow := decide (corr > 0.9) && decide (width_ratio < 0.1)
  (corr, width_ratio, stereo_narrow)

/-- One stage of an FFmpeg filter chain, as assembled by the two builders. -/
inductive Stage
  | highpass : Stage
  | bass : Shelf → Stage
  | treble : Shelf → Stage
  | acompressor : Comp → Stage
  | stereowiden : Stage
  | loudnorm : Loudnorm → Stage
  | anull : Stage
deriving DecidableEq

/-- `smart_auto.build_smart_chain` (smart_auto.py lines 84-114), at the level
of the `filters` list it joins with commas. -/
def build_smart_chain (P : SmartParams) : List Stage :=
  let fs : List Stage := []
  let fs := fs ++ (if P.tone.hpf then [Stage.highpass] else [])
  let fs := fs ++ (match P.tone.low_shelf with | some lf => [Stage.bass lf] | none => [])
  let fs := fs ++ (match P.tone.high_shelf with | some hf => [Stage.treble hf] | none => [])
  let fs := fs ++ [Stage.acompressor P.comp]
  let fs := fs ++ (if P.stereo_widen then [Stage.stereowiden] else [])
  fs ++ [Stage.loudnorm P.loudnorm]

/-- `bot.build_chain_from_params` (bot.py lines 168-187), at the level of the
stage list: the EQ part falls back to the `anull` pass-through marker when
empty, then compressor and loudnorm follow. -/
def build_chain_from_params (P : BotParams) : List Stage :=
  let eq_parts : List Stage :=
    (if P.tone.hpf then [Stage.highpass] else []) ++
    (match P.tone.low_shelf with | some lf => [Stage.bass lf] | none => []) ++
    (match P.tone.high_shelf with | some hf => [Stage.treble hf] | none => [])
  let eq_chain := if eq_parts = [] then [Stage.anull] else eq_parts
  eq_chain ++ [Stage.acompressor P.comp, Stage.loudnorm P.loudnorm]

/-- `match parse chunk: success replaces the retained object, failure keeps
it` — the `try/except` around `json.loads` in `_extract_last_json_block`. -/
def updateLast {J : Type} (last : Option J) (o : Option J) : Option J :=
  match o with
  | some j => some j
  | none => last

/-- One iteration of the scan loop of `bot._extract_last_json_block`
(bot.py lines 201-221).  State: `(start, depth, last_obj)`; `start = none`
models Python's `start = -1`.  `cs` is the whole text (the Python code slices
`text[start:i+1]`), `parse` models `json.loads` returning `none` on failure. -/
def jsonStep {J : Type} (parse : List Char → Option J) (cs : List Char)
    (st : Option ℕ × ℕ × Option J) (ic : ℕ × Char) : Option ℕ × ℕ × Option J :=
  let (start, depth, last) := st
  let (i, ch) := ic
  if ch = '{' then
    (if depth = 0 then some i else start, depth + 1, last)
  else if ch = '}' then
    if 0 < depth then
      let d := depth - 1
      if d = 0 then
        match start with
        | some s => (none, 0, updateLast last (parse ((cs.drop s).take (i + 1 - s))))
        | none => (none, 0, last)
      else (start, d, last)
    else st
  else st

/-- `bot._extract_last_json_block` (bot.py lines 201-221). -/
def extract_last_json_block {J : Type} (parse : List Char → Option J)
    (cs : List Char) : Option J :=
  ((cs.enum).foldl (jsonStep parse cs) (none, 0, none)).2.2

/-- Brace nesting delta of a character list. -/
def braceDelta (l : List Char) : ℤ := (l.count '{' : ℤ) - (l.count '}' : ℤ)

/-- A balanced top-level brace block: at least two characters, total delta
zero, and every proper nonempty prefix strictly open (so the block opens
with `{`, closes with `}` and never returns to depth 0 before its end). -/
def BalancedBlock (b : List Char) : Prop :=
  2 ≤ b.length ∧ braceDelta b = 0 ∧ ∀ n, n < b.length → 0 < n → 0 < braceDelta (b.take n)

instance : DecidablePred BalancedBlock := fun b => by
  unfold BalancedBlock; infer_instance

/-- The last successfully parsed element of a list of parse results. -/
def lastSuccess {J : Type} (l : List (Option J)) : Option J :=
  l.foldl updateLast none

/-- Interleave filler text and blocks: `assemble [(f₀,b₀),…] t = f₀++b₀++…++t`. -/
def assemble : List (List Char × List Char) → List Char → List Char
  | [], tail => tail
  | (f, b) :: rest, tail => f ++ b ++ assemble rest tail

/-- Python's `needle in haystack` substring test. -/
def containsSub (needle : List Char) : List Char → Bool
  | [] => needle.isEmpty
  | c :: t => needle.isPrefixOf (c :: t) || containsSub needle t

/-- A `\w` character of the regexes in bot.py (the texts involved are ASCII). -/
def isWordChar (c : Char) : Bool := c.isAlphanum || c = '_'

/-- Match of the regex core `loudnorm=[^,]*print_format=\w+` anchored at the
head of `s`: returns `(group1 length, full length)` where group 1 is
`loudnorm=[^,]*print_format=`.  The `[^,]*` is greedy, so `j` is the largest
comma-free offset at which `print_format=` followed by at least one word
character occurs. -/
def matchLNAt (s : List Char) : Option (ℕ × ℕ) :=
  if "loudnorm=".toList.isPrefixOf s then
    let t := s.drop 9
    let cf := (t.takeWhile (fun c => decide (c ≠ ','))).length
    match ((List.range (cf + 1)).reverse).find? (fun j =>
        "print_format=".toList.isPrefixOf (t.drop j) &&
        !((t.drop (j + 13)).takeWhile isWordChar).isEmpty) with
    | some j => some (9 + j + 13, 9 + j + 13 + ((t.drop (j + 13)).takeWhile isWordChar).length)
    | none => none
  else none

/-- Leftmost match of `loudnorm=[^,]*print_format=\w+` in `s`:
`(position, group1 length, full length)`. -/
def findLNMatch : List Char → Option (ℕ × ℕ × ℕ)
  | [] => none
  | c :: t =>
    match matchLNAt (c :: t) with
    | some (g, f) => some (0, g, f)
    | none =>
      match findLNMatch t with
      | some (i, g, f) => some (i + 1, g, f)
      | none => none

/-- `re.sub(r"(loudnorm=[^,]*print_format=)(\w+)", r"\1json", s, count=1)`:
rewrite the format word of the first matching loudnorm stage to `json`. -/
def force_json_sub1 (s : List Char) : List Char :=
  match findLNMatch s with
  | some (i, g, f) => s.take i ++ (s.drop i).take g ++ "json".toList ++ s.drop (i + f)
  | none => s

/-- `re.sub(r"(loudnorm=[^,]*)$", r"\1:print_format=json", s, count=1)`: if
some `loudnorm=` occurrence extends comma-free to the end of the string,
append `:print_format=json` (`\1` reproduces the matched suffix). -/
def force_json_append (s : List Char) : List Char :=
  match (List.range s.length).find? (fun i =>
      "loudnorm=".toList.isPrefixOf (s.drop i) && (s.drop (i + 9)).all (fun c => decide (c ≠ ','))) with
  | some _ => s ++ ":print_format=json".toList
  | none => s

/-- `bot._force_print_format_json` (bot.py lines 190-199). -/
def force_print_format_json (chain : List Char) : List Char :=
  if containsSub "loudnorm=".toList chain = false then chain
  else if containsSub "print_format=".toList chain then force_json_sub1 chain
  else force_json_append chain

/-- `re.sub(pat, rep, s)` for the pattern `loudnorm=[^,]*print_format=\w+`
(all occurrences, scanning left to right, continuing after each match).
`fuel` bounds the recursion; every match consumes at least 23 characters, so
`fuel = s.length` is enough. -/
def subLNAll (rep : List Char) : ℕ → List Char → List Char
  | 0, s => s
  | fuel + 1, s =>
    match findLNMatch s with
    | some (i, _, f) => s.take i ++ rep ++ subLNAll rep fuel (s.drop (i + f))
    | none => s

/-- The parsed measurement block: a JSON object modelled as an association
list of string keys and (stringly rendered) values, as `json.loads` yields
for ffmpeg's loudnorm report.  The empty list models the empty object `{}`,
which is falsy in Python. -/
abbrev Js : Type := List (String × String)

/-- Python `js.get(k, dflt)`. -/
def jsGet (js : Js) (k dflt : String) : String :=
  match js.find? (fun p => decide (p.1 = k)) with
  | some p => p.2
  | none => dflt

/-- The replacement loudnorm stage built for the second pass
(bot.py lines 241-251).  The `I`/`TP`/`LRA` values are taken from the parsed
report's `target_*` entries, falling back to its `input_*` entries and then
to hard-coded defaults — the original chain's targets are never read — and
the measured values and offset follow. -/
def measuredString (js : Js) : List Char :=
  "loudnorm=I=".toList ++ (jsGet js "target_i" (jsGet js "input_i" "-14")).toList ++
  ":TP=".toList ++ (jsGet js "target_tp" (jsGet js "input_tp" "-1.2")).toList ++
  ":LRA=".toList ++ (jsGet js "target_lra" (jsGet js "input_lra" "7")).toList ++
  ":measured_I=".toList ++ (jsGet js "input_i" "-14").toList ++
  ":measured_LRA=".toList ++ (jsGet js "input_lra" "7").toList ++
  ":measured_TP=".toList ++ (jsGet js "input_tp" "-1.2").toList ++
  ":measured_thresh=".toList ++ (jsGet js "input_thresh" "-26").toList ++
  ":offset=".toList ++ (jsGet js "target_offset" "0").toList ++
  ":print_format=summary".toList

/-- Outcome of one invocation of the external engine (ffmpeg): exit code and
captured diagnostic text. -/
structure EngineOut where
  exitCode : ℤ
  errText : List Char

/-- `bot.ffmpeg_loudnorm_two_pass` (bot.py lines 223-258).  `engine` models
one ffmpeg invocation on a filter chain (output-encoding arguments are not
observed by the protocol logic), `parse` models `json.loads`.  Returns the
list of chains the engine was invoked with, in order, together with the
request outcome. -/
def ffmpeg_loudnorm_two_pass (engine : List Char → EngineOut)
    (parse : List Char → Option Js) (chain : List Char) :
    List (List Char) × Except (List Char) Unit :=
  if containsSub "loudnorm".toList chain = false then
    ([], Except.error "Chain must end with loudnorm".toList)
  else
    let pass1 := force_print_format_json chain
    let r1 := engine pass1
    if r1.exitCode ≠ 0 then
      ([pass1], Except.error ("ffmpeg pass1 failed: ".toList ++ r1.errText))
    else
      let js := extract_last_json_block parse r1.errText
      -- bot.py line 241 `if js:`: Python truthiness, so both a parse failure
      -- (`None`) and a successfully parsed empty object (`{}`) skip the
      -- measurement injection and keep the original chain.
      let pass2 := match js with
        | some j => if j = [] then chain else subLNAll (measuredString j) chain.length chain
        | none => chain
      let r2 := engine pass2
      ([pass1, pass2],
        if r2.exitCode ≠ 0 then Except.error ("ffmpeg pass2 failed: ".toList ++ r2.errText)
        else Except.ok ())

/-! ### Helper lemmas -/

lemma npClip_le_right (x lo hi : ℚ) : npClip x lo hi ≤ hi := min_le_right _ _

lemma le_npClip (x lo hi : ℚ) (h : lo ≤ hi) : lo ≤ npClip x lo hi :=
  le_min (le_max_right _ _) h

lemma round_le_round {x y : ℚ} (h : x ≤ y) : round x ≤ round y := by
  rw [round_eq, round_eq]
  exact Int.floor_le_floor (by linarith)

lemma round2_mono {x y : ℚ} (h : x ≤ y) : round2 x ≤ round2 y := by
  unfold round2
  have h1 : round (100 * x) ≤ round (100 * y) := round_le_round (by linarith)
  have h2 : ((round (100 * x) : ℤ) : ℚ) ≤ ((round (100 * y) : ℤ) : ℚ) := by exact_mod_cast h1
  linarith

lemma round2_fixed (z : ℤ) : round2 ((z : ℚ) / 100) = (z : ℚ) / 100 := by
  unfold round2
  have h : (100 : ℚ) * ((z : ℚ) / 100) = (z : ℚ) := by ring
  rw [h, round_intCast]

/-- `round2` keeps a value inside a closed interval whose endpoints are
multiples of `1/100`. -/
lemma round2_mem {x lo hi : ℚ} {zl zh : ℤ} (el : lo = (zl : ℚ) / 100)
    (eh : hi = (zh : ℚ) / 100) (h1 : lo ≤ x) (h2 : x ≤ hi) :
    lo ≤ round2 x ∧ round2 x ≤ hi := by
  constructor
  · calc lo = round2 lo := by rw [el, round2_fixed]
      _ ≤ round2 x := round2_mono h1
  · calc round2 x ≤ round2 hi := round2_mono h2
      _ = hi := by rw [eh, round2_fixed]

lemma round1_intCast (z : ℤ) : round1 ((z : ℚ)) = (z : ℚ) := by
  unfold round1
  have h : (10 : ℚ) * (z : ℚ) = ((10 * z : ℤ) : ℚ) := by push_cast; ring
  rw [h, round_intCast]
  push_cast
  ring

/-! ### C10: the smart decision engine's target LRA and TP are discrete -/

/-- C10: for every analysis report, `decide_smart_params` produces a target
LRA in `{5, 6, 8}` (a step function of the input LRA, not a continuous
interpolation over the `[4,10]` clamp band) and a target true peak in
`{-1, -0.5}`. -/
theorem c10_thm : ∀ a : Analysis,
    ((decide_smart_params a).loudnorm.LRA = 5 ∨ (decide_smart_params a).loudnorm.LRA = 6 ∨
      (decide_smart_params a).loudnorm.LRA = 8) ∧
    ((decide_smart_params a).loudnorm.TP = -1 ∨ (decide_smart_params a).loudnorm.TP = -0.5) := by
  intro a
  unfold decide_smart_params
  constructor
  · by_cases h1 : a.LRA ≥ 20
    · simp only [if_pos h1]
      right; right; norm_num [npClip, max_def, min_def]
    · by_cases h2 : a.LRA ≥ 10
      · simp only [if_neg h1, if_pos h2]
        right; left; norm_num [npClip, max_def, min_def]
      · simp only [if_neg h1, if_neg h2]
        left; norm_num [npClip, max_def, min_def]
  · by_cases h : a.TruePeak_dBFS ≥ -0.1
    · simp only [if_pos h]
      left; norm_num [npClip, max_def, min_def]
    · simp only [if_neg h]
      right; norm_num [npClip, max_def, min_def]

/-! ### C6: filter-chain stage order -/

/-- C6: both chain builders emit stages in the fixed order
`[highpass?] → low shelf → high shelf → compressor → [widen?] → loudnorm`,
with the loudness normalizer always last; in `build_chain_from_params` an
empty EQ part is replaced by the `anull` pass-through marker instead of
breaking the chain. -/
theorem c6_thm :
    (∀ P : SmartParams,
      build_smart_chain P =
        (if P.tone.hpf then [Stage.highpass] else []) ++
        (P.tone.low_shelf.elim [] (fun lf => [Stage.bass lf])) ++
        (P.tone.high_shelf.elim [] (fun hf => [Stage.treble hf])) ++
        [Stage.acompressor P.comp] ++
        (if P.stereo_widen then [Stage.stereowiden] else []) ++
        [Stage.loudnorm P.loudnorm]) ∧
    (∀ P : SmartParams, (build_smart_chain P).getLast? = some (Stage.loudnorm P.loudnorm)) ∧
    (∀ P : BotParams,
      build_chain_from_params P =
        (if P.tone.hpf = false ∧ P.tone.low_shelf = none ∧ P.tone.high_shelf = none
         then [Stage.anull]
         else (if P.tone.hpf then [Stage.highpass] else []) ++
              (P.tone.low_shelf.elim [] (fun lf => [Stage.bass lf])) ++
              (P.tone.high_shelf.elim [] (fun hf => [Stage.treble hf]))) ++
        [Stage.acompressor P.comp, Stage.loudnorm P.loudnorm]) ∧
    (∀ P : BotParams, (build_chain_from_params P).getLast? = some (Stage.loudnorm P.loudnorm)) := by
  have hsmart : ∀ P : SmartParams,
      build_smart_chain P =
        (if P.tone.hpf then [Stage.highpass] else []) ++
        (P.tone.low_shelf.elim [] (fun lf => [Stage.bass lf])) ++
        (P.tone.high_shelf.elim [] (fun hf => [Stage.treble hf])) ++
        [Stage.acompressor P.comp] ++
        (if P.stereo_widen then [Stage.stereowiden] else []) ++
        [Stage.loudnorm P.loudnorm] := by
    intro P
    unfold build_smart_chain
    rcases P.tone.low_shelf with _ | lf <;> rcases P.tone.high_shelf with _ | hf <;>
      simp [List.append_assoc]
  have hbot : ∀ P : BotParams,
      build_chain_from_params P =
        (if P.tone.hpf = false ∧ P.tone.low_shelf = none ∧ P.tone.high_shelf = none
         then [Stage.anull]
         else (if P.tone.hpf then [Stage.highpass] else []) ++
              (P.tone.low_shelf.elim [] (fun lf => [Stage.bass lf])) ++
              (P.tone.high_shelf.elim [] (fun hf => [Stage.treble hf]))) ++
        [Stage.acompressor P.comp, Stage.loudnorm P.loudnorm] := by
    intro P
    unfold build_chain_from_params
    rcases hh : P.tone.hpf <;> rcases P.tone.low_shelf with _ | lf <;>
      rcases P.tone.high_shelf with _ | hf <;> simp [List.append_assoc]
  refine ⟨hsmart, ?_, hbot, ?_⟩
  · intro P
    rw [hsmart P]
    exact List.getLast?_concat _
  · intro P
    rw [hbot P]
    simp [List.getLast?_append]

/-! ### C9: the two-pass normalizer rejects chains without a loudnorm stage -/

/-- C9: when the chain string does not contain `"loudnorm"`,
`ffmpeg_loudnorm_two_pass` fails with `"Chain must end with loudnorm"`
without invoking the external engine at all; conversely the engine is only
ever invoked (the invocation trace is nonempty) when the chain contains
`"loudnorm"`. -/
theorem c9_thm :
    (∀ (engine : List Char → EngineOut) (parse : List Char → Option Js) (chain : List Char),
      containsSub "loudnorm".toList chain = false →
      ffmpeg_loudnorm_two_pass engine parse chain
        = ([], Except.error "Chain must end with loudnorm".toList)) ∧
    (∀ (engine : List Char → EngineOut) (parse : List Char → Option Js) (chain : List Char),
      (ffmpeg_loudnorm_two_pass engine parse chain).1 ≠ [] →
      containsSub "loudnorm".toList chain = true) := by
  constructor
  · intro engine parse chain h
    unfold ffmpeg_loudnorm_two_pass
    rw [if_pos h]
  · intro engine parse chain h
    by_cases hc : containsSub "loudnorm".toList chain = false
    · exfalso
      apply h
      unfold ffmpeg_loudnorm_two_pass
      rw [if_pos hc]
    · rcases h' : containsSub "loudnorm".toList chain
      · exact absurd h' hc
      · rfl

/-- Concrete instantiation of `c9_thm`: the chain `"anull"` contains no
loudnorm stage, so the request is rejected with an empty invocation trace. -/
theorem c9_witness :
    ffmpeg_loudnorm_two_pass (fun _ => ⟨0, []⟩) (fun _ => none) "anull".toList
      = ([], Except.error "Chain must end with loudnorm".toList) :=
  c9_thm.1 (fun _ => ⟨0, []⟩) (fun _ => none) "anull".toList (by decide)

/-! ### C8: stereo narrowness and the widen flag -/

/-- C8: the inter-channel correlation is defined as `1` whenever either
channel has near-zero variance (`std < 1e-6`, i.e. variance `< 1e-12`); the
narrow flag is exactly `corr > 0.9 ∧ width < 0.1`; for every report with
`StereoNarrow` set, `decide_smart_params` enables stereo widening; and
whenever the computed correlation exceeds `0.9` and the width ratio is below
`0.1` (as in the `0.98` / `0.05` scenario), the narrow flag is set. -/
theorem c8_thm :
    (∀ (pearson : List ℚ → List ℚ → ℚ) (L R : List ℚ),
      popVar L < 1 / 1000000000000 ∨ popVar R < 1 / 1000000000000 →
      (stereoAnalysis pearson L R).1 = 1) ∧
    (∀ (pearson : List ℚ → List ℚ → ℚ) (L R : List ℚ),
      (stereoAnalysis pearson L R).2.2
        = (decide ((stereoAnalysis pearson L R).1 > 0.9) &&
           decide ((stereoAnalysis pearson L R).2.1 < 0.1))) ∧
    (∀ a : Analysis, a.StereoNarrow = true → (decide_smart_params a).stereo_widen = true) ∧
    (∀ (pearson : List ℚ → List ℚ → ℚ) (L R : List ℚ),
      (stereoAnalysis pearson L R).1 > 0.9 → (stereoAnalysis pearson L R).2.1 < 0.1 →
      (stereoAnalysis pearson L R).2.2 = true) := by
  refine ⟨?_, ?_, ?_, ?_⟩
  · intro pearson L R h
    unfold stereoAnalysis
    rw [if_pos h]
  · intro pearson L R
    unfold stereoAnalysis
    rfl
  · intro a h
    unfold decide_smart_params
    exact h
  · intro pearson L R h1 h2
    unfold stereoAnalysis at h1 h2 ⊢
    dsimp only at h1 h2 ⊢
    rw [decide_eq_true h1, decide_eq_true h2]
    rfl

/-- Concrete instantiation of `c8_thm`: a silent channel forces correlation
`1`; channels `[1,-1]` and `[3/5,-3/5]` with the external Pearson routine
reporting `0.98` have width ratio below `0.1`, so the narrow flag is set,
and a narrow report turns the widen flag on. -/
theorem c8_witness :
    (stereoAnalysis (fun _ _ => 49 / 50) [0, 0] [0, 0]).1 = 1 ∧
    (stereoAnalysis (fun _ _ => 49 / 50) [1, 0] [3/5, 0]).2.2 = true ∧
    (decide_smart_params ⟨-14, 6, -1, -18, 0, false, 0, true⟩).stereo_widen = true := by
  refine ⟨?_, ?_, ?_⟩
  · exact c8_thm.1 (fun _ _ => 49 / 50) [0, 0] [0, 0]
      (Or.inl (by norm_num [popVar, meanQ]))
  · exact c8_thm.2.2.2 (fun _ _ => 49 / 50) [1, 0] [3/5, 0]
      (by norm_num [stereoAnalysis, popVar, meanQ])
      (by norm_num [stereoAnalysis, popVar, meanQ])
  · exact c8_thm.2.2.1 ⟨-14, 6, -1, -18, 0, false, 0, true⟩ rfl

/-! ### C4: true peak, oversampled vs naive -/

/-- C4 counterexample to the claim as stated: the true peak reported by
`auto_analysis.analyze_file` is exactly the naive `20·log10(max|y| + 1e-12)`
over the original samples, and differs from the oversampling-based
`true_peak_dbfs` whenever the external resampler reveals a higher
inter-sample peak (here modelled by a resampler returning `[1]`). -/
theorem c4_counterexample :
    auto_true_peak_dbfs id [1/2, -1/2] [1/2, -1/2]
      = 20 * (maxAbs [1/2, -1/2] + 1 / 1000000000000) ∧
    auto_true_peak_dbfs id [1/2, -1/2] [1/2, -1/2]
      ≠ true_peak_dbfs (fun _ _ _ => [1]) id [1/2, -1/2] 48000 := by
  constructor
  · unfold auto_true_peak_dbfs
    rw [max_self]
    rfl
  · unfold auto_true_peak_dbfs true_peak_dbfs
    have h1 : maxAbs [(1:ℚ)/2, -1/2] = 1/2 := by norm_num [maxAbs]
    have h2 : maxAbs [(1:ℚ)] = 1 := by norm_num [maxAbs]
    dsimp only
    rw [max_self, h1, h2]
    norm_num

/-- C4 amended: `analyze_mastering.true_peak_dbfs` measures the peak of the
4x-oversampled signal produced by the external resampler, while the
`auto_analysis` true peak is the naive maximum over original samples; under
any strictly monotone dB conversion, the oversampled estimate is strictly
larger whenever the resampler exposes a larger inter-sample peak. -/
theorem c4_thm (log10f : ℚ → ℚ) (hmono : StrictMono log10f)
    (resample : List ℚ → ℕ → ℕ → List ℚ) (x : List ℚ) (sr : ℕ)
    (hpeak : maxAbs x < maxAbs (resample x sr (sr * 4))) :
    auto_true_peak_dbfs log10f x x < true_peak_dbfs resample log10f x sr := by
  unfold auto_true_peak_dbfs true_peak_dbfs
  rw [max_self]
  have h := hmono (show maxAbs x + 1 / 1000000000000
      < maxAbs (resample x sr (sr * 4)) + 1 / 1000000000000 by linarith)
  linarith

/-- Concrete instantiation of `c4_thm` with the identity as dB map and a
resampler exposing an inter-sample peak of `1` above the sample maximum. -/
theorem c4_witness :
    auto_true_peak_dbfs id [1/2] [1/2] < true_peak_dbfs (fun _ _ _ => [1]) id [1/2] 48000 :=
  c4_thm id strictMono_id (fun _ _ _ => [1]) [1/2] 48000 (by
    have h1 : maxAbs [(1:ℚ)/2] = 1/2 := by norm_num [maxAbs]
    have h2 : maxAbs [(1:ℚ)] = 1 := by norm_num [maxAbs]
    dsimp only
    rw [h1, h2]
    norm_num)

/-! ### C3: integrated loudness, the -23 fallback and the silent scenario -/

/-- C3 counterexample to the claim as stated: `integrated_loudness_lufs`
contains no error handling and no `-23` fallback — it propagates the
external meter's failure unchanged (the real pyloudnorm meter does raise,
e.g. on well-formed buffers shorter than one 400 ms block and on the
all-silent buffer that `analyze_mastering.analyze_file` trims to empty). -/
theorem c3_counterexample :
    integrated_loudness_lufs (fun _ _ => Except.error ()) [0, 0, 0, 0] 48000
      = Except.error () := rfl

lemma maxAbs_replicate_zero (k : ℕ) : maxAbs (List.replicate k (0:ℚ)) = 0 := by
  induction k with
  | zero => rfl
  | succ k ih =>
    rw [List.replicate_succ]
    unfold maxAbs at ih ⊢
    rw [List.foldr_cons, ih]
    simp

/-- C3 amended: the `-23` default exists only in the gating step inside
`loudness_range_lra`, where a meter failure is caught and replaced by `-23`;
a successful meter value is used unchanged; `integrated_loudness_lufs`
returns the external meter's result as is; and on an all-zero buffer the
`auto_analysis` LRA loop skips every window by the `1e-6` silence threshold
and yields `LRA = 0` without consulting the meter at all. -/
theorem c3_thm :
    (∀ (meterI : ℕ → List ℚ → Except Unit ℚ) (x : List ℚ) (sr : ℕ) (e : Unit),
      meterI sr x = Except.error e → lraGateI meterI x sr = -23) ∧
    (∀ (meterI : ℕ → List ℚ → Except Unit ℚ) (x : List ℚ) (sr : ℕ) (v : ℚ),
      meterI sr x = Except.ok v → lraGateI meterI x sr = v) ∧
    (∀ (meterI : ℕ → List ℚ → Except Unit ℚ) (x : List ℚ) (sr : ℕ),
      integrated_loudness_lufs meterI x sr = meterI sr x) ∧
    (∀ (meterSeg : List ℚ → List ℚ → ℚ) (n sr : ℕ),
      auto_lra meterSeg (List.replicate n 0) (List.replicate n 0) sr = 0) := by
  refine ⟨?_, ?_, ?_, ?_⟩
  · intro meterI x sr e h
    unfold lraGateI
    rw [h]
  · intro meterI x sr v h
    unfold lraGateI
    rw [h]
  · intro meterI x sr
    rfl
  · intro meterSeg n sr
    unfold auto_lra
    rw [List.length_replicate]
    by_cases h : n < 3 * sr
    · rw [if_pos h]
    · rw [if_neg h]
      have hmax : ∀ s : ℕ, maxAbs (((List.replicate n (0:ℚ)).drop s).take (3 * sr)) = 0 := by
        intro s
        rw [List.drop_replicate, List.take_replicate]
        exact maxAbs_replicate_zero _
      have hempty : (windowStarts n (3 * sr) sr).filterMap (fun s =>
          let segL := (((List.replicate n (0:ℚ))).drop s).take (3 * sr)
          let segR := (((List.replicate n (0:ℚ))).drop s).take (3 * sr)
          if max (maxAbs segL) (maxAbs segR) < 1 / 1000000 then none
          else some (meterSeg segL segR)) = [] := by
        rw [List.filterMap_eq_nil_iff]
        intro s _
        simp only [hmax, max_self]
        norm_num
      rw [hempty]
      rfl

/-- Concrete instantiation of `c3_thm`: a failing meter is replaced by `-23`
in the gate, a succeeding one is passed through, and a five-sample silent
buffer gets `LRA = 0`. -/
theorem c3_witness :
    lraGateI (fun _ _ => Except.error ()) [0] 1 = -23 ∧
    lraGateI (fun _ _ => Except.ok (-10)) [0] 1 = -10 ∧
    auto_lra (fun _ _ => 0) (List.replicate 5 (0:ℚ)) (List.replicate 5 0) 1 = 0 :=
  ⟨c3_thm.1 (fun _ _ => Except.error ()) [0] 1 () rfl,
   c3_thm.2.1 (fun _ _ => Except.ok (-10)) [0] 1 (-10) rfl,
   c3_thm.2.2.2 (fun _ _ => 0) 5 1⟩

/-! ### C1: clamp ranges of the decision engines -/

lemma smart_high_gain_bounds (t : ℚ) :
    -3 ≤ npInterp t [(-20, 3), (0, 0), (20, -3)] ∧
      npInterp t [(-20, 3), (0, 0), (20, -3)] ≤ 3 := by
  simp only [npInterp]
  split_ifs <;> constructor <;> linarith

lemma smart_low_gain_bounds (t : ℚ) :
    -3 ≤ npInterp t [(-20, -2.5), (0, 0), (20, 2)] ∧
      npInterp t [(-20, -2.5), (0, 0), (20, 2)] ≤ 3 := by
  simp only [npInterp]
  split_ifs <;> constructor <;> linarith

lemma bot_high_gain_bounds (t : ℚ) :
    -3 ≤ npInterp t [(-4, 2.5), (0, 0), (4, -2.5)] ∧
      npInterp t [(-4, 2.5), (0, 0), (4, -2.5)] ≤ 3 := by
  simp only [npInterp]
  split_ifs <;> constructor <;> linarith

lemma bot_low_gain_bounds (t : ℚ) :
    -3 ≤ npInterp t [(-4, -1.5), (0, 0), (4, 1)] ∧
      npInterp t [(-4, -1.5), (0, 0), (4, 1)] ≤ 3 := by
  simp only [npInterp]
  split_ifs <;> constructor <;> linarith

/-- C1 counterexample to the claim as stated: the compressor threshold is
`rms + offset` with no clamp, so no bounded range contains it for all
reports — the claim's "compressor parameters likewise bounded" fails. -/
theorem c1_counterexample :
    ¬ ∃ lo hi : ℚ, ∀ a : Analysis,
      lo ≤ (decide_smart_params a).comp.threshold_db ∧
      (decide_smart_params a).comp.threshold_db ≤ hi := by
  rintro ⟨lo, hi, h⟩
  have hk0 : (0:ℤ) ≤ max 0 (⌈hi⌉ + 1) := le_max_left _ _
  set k : ℤ := max 0 (⌈hi⌉ + 1) with hk
  have hkq : hi < (k:ℚ) := by
    have h1 : hi ≤ (⌈hi⌉:ℚ) := Int.le_ceil hi
    have h2 : (⌈hi⌉ + 1 : ℤ) ≤ k := le_max_right _ _
    have h3 : ((⌈hi⌉ + 1 : ℤ):ℚ) ≤ (k:ℚ) := by exact_mod_cast h2
    push_cast at h3
    linarith
  have hknn : (0:ℚ) ≤ (k:ℚ) := by exact_mod_cast hk0
  have happ := (h ⟨0, 0, 0, (k:ℚ), 0, false, 0, false⟩).2
  have hthr : (decide_smart_params ⟨0, 0, 0, (k:ℚ), 0, false, 0, false⟩).comp.threshold_db
      = (k:ℚ) := by
    unfold decide_smart_params
    dsimp only
    have c1 : ¬((0:ℚ) ≥ 15 ∨ (k:ℚ) < -24) := by
      push_neg
      exact ⟨by norm_num, by linarith⟩
    have c2 : ¬((0:ℚ) ≥ 8 ∧ (k:ℚ) < -20) := by
      rintro ⟨h8, -⟩
      norm_num at h8
    have c3 : ¬((k:ℚ) < -16) := by linarith
    rw [if_neg c1, if_neg c2, if_neg c3]
    dsimp only
    rw [add_zero]
    exact round1_intCast k
  rw [hthr] at happ
  linarith

/-- C1 amended: every numeric output of both decision engines except the
compressor threshold lies in its documented clamp range (target I in
`[-16.5,-11.5]`, LRA in `[4,10]` — constant `6` for the bot engine — TP in
`[-3,0]`, shelf gains within `±3` dB, compressor ratio in `[1.3,2]` resp.
`[1.4,2.2]`, fixed attack/release); the compressor threshold equals the
input RMS plus a bounded offset and inherits the input's unboundedness. -/
theorem c1_thm :
    (∀ a : Analysis,
      (-16.5 ≤ (decide_smart_params a).loudnorm.I ∧ (decide_smart_params a).loudnorm.I ≤ -11.5) ∧
      (4 ≤ (decide_smart_params a).loudnorm.LRA ∧ (decide_smart_params a).loudnorm.LRA ≤ 10) ∧
      (-3 ≤ (decide_smart_params a).loudnorm.TP ∧ (decide_smart_params a).loudnorm.TP ≤ 0) ∧
      (∃ s, (decide_smart_params a).tone.low_shelf = some s ∧ -3 ≤ s.g ∧ s.g ≤ 3) ∧
      (∃ s, (decide_smart_params a).tone.high_shelf = some s ∧ -3 ≤ s.g ∧ s.g ≤ 3) ∧
      (1.3 ≤ (decide_smart_params a).comp.ratioQ ∧ (decide_smart_params a).comp.ratioQ ≤ 2) ∧
      (decide_smart_params a).comp.attack = 20 ∧ (decide_smart_params a).comp.release = 150 ∧
      (∃ c, (c = (0:ℚ) ∨ c = 2 ∨ c = 4 ∨ c = 6) ∧
        (decide_smart_params a).comp.threshold_db = round1 (a.RMS_dB + c))) ∧
    (∀ A : AnalysisPro,
      (-16.5 ≤ (decide_params_from_analysis A).loudnorm.I ∧
        (decide_params_from_analysis A).loudnorm.I ≤ -11.5) ∧
      (decide_params_from_analysis A).loudnorm.LRA = 6 ∧
      (decide_params_from_analysis A).loudnorm.TP = -1.2 ∧
      (∃ s, (decide_params_from_analysis A).tone.low_shelf = some s ∧ -3 ≤ s.g ∧ s.g ≤ 3) ∧
      (∃ s, (decide_params_from_analysis A).tone.high_shelf = some s ∧ -3 ≤ s.g ∧ s.g ≤ 3) ∧
      (1.4 ≤ (decide_params_from_analysis A).comp.ratioQ ∧
        (decide_params_from_analysis A).comp.ratioQ ≤ 2.2) ∧
      (∃ c, (c = (1:ℚ) ∨ c = 2 ∨ c = 4 ∨ c = 6) ∧
        (decide_params_from_analysis A).comp.threshold_db = round1 (A.rms_db + c))) := by
  constructor
  · intro a
    unfold decide_smart_params
    dsimp only
    refine ⟨?_, ⟨le_npClip _ _ _ (by norm_num), npClip_le_right _ _ _⟩,
      ⟨le_npClip _ _ _ (by norm_num), npClip_le_right _ _ _⟩, ?_, ?_, ?_, rfl, rfl, ?_⟩
    · exact @round2_mem _ _ _ (-1650) (-1150) (by norm_num) (by norm_num)
        (le_npClip _ _ _ (by norm_num)) (npClip_le_right _ _ _)
    · refine ⟨_, rfl, ?_, ?_⟩
      · exact (@round2_mem _ _ _ (-300) 300 (by norm_num) (by norm_num)
          (smart_low_gain_bounds _).1 (smart_low_gain_bounds _).2).1
      · exact (@round2_mem _ _ _ (-300) 300 (by norm_num) (by norm_num)
          (smart_low_gain_bounds _).1 (smart_low_gain_bounds _).2).2
    · refine ⟨_, rfl, ?_, ?_⟩
      · exact (@round2_mem _ _ _ (-300) 300 (by norm_num) (by norm_num)
          (smart_high_gain_bounds _).1 (smart_high_gain_bounds _).2).1
      · exact (@round2_mem _ _ _ (-300) 300 (by norm_num) (by norm_num)
          (smart_high_gain_bounds _).1 (smart_high_gain_bounds _).2).2
    · split_ifs <;> dsimp only <;>
        exact @round2_mem _ _ _ 130 200 (by norm_num) (by norm_num)
          (by norm_num) (by norm_num)
    · split_ifs <;> dsimp only
      · exact ⟨6, by norm_num, rfl⟩
      · exact ⟨4, by norm_num, rfl⟩
      · exact ⟨2, by norm_num, rfl⟩
      · exact ⟨0, by norm_num, rfl⟩
  · intro A
    unfold decide_params_from_analysis
    dsimp only
    refine ⟨?_, by norm_num, rfl, ?_, ?_, ?_, ?_⟩
    · exact @round2_mem _ _ _ (-1650) (-1150) (by norm_num) (by norm_num)
        (le_npClip _ _ _ (by norm_num))
        (le_trans (npClip_le_right _ _ _) (by norm_num))
    · refine ⟨_, rfl, ?_, ?_⟩
      · exact (@round2_mem _ _ _ (-300) 300 (by norm_num) (by norm_num)
          (bot_low_gain_bounds _).1 (bot_low_gain_bounds _).2).1
      · exact (@round2_mem _ _ _ (-300) 300 (by norm_num) (by norm_num)
          (bot_low_gain_bounds _).1 (bot_low_gain_bounds _).2).2
    · refine ⟨_, rfl, ?_, ?_⟩
      · exact (@round2_mem _ _ _ (-300) 300 (by norm_num) (by norm_num)
          (bot_high_gain_bounds _).1 (bot_high_gain_bounds _).2).1
      · exact (@round2_mem _ _ _ (-300) 300 (by norm_num) (by norm_num)
          (bot_high_gain_bounds _).1 (bot_high_gain_bounds _).2).2
    · split_ifs <;> dsimp only <;>
        exact @round2_mem _ _ _ 140 220 (by norm_num) (by norm_num)
          (by norm_num) (by norm_num)
    · split_ifs <;> dsimp only
      · exact ⟨6, by norm_num, rfl⟩
      · exact ⟨4, by norm_num, rfl⟩
      · exact ⟨2, by norm_num, rfl⟩
      · exact ⟨1, by norm_num, rfl⟩

/-! ### C5: the gated-percentile loudness range -/

/-- C5: `loudness_range_lra` is always nonnegative; it returns `0` when the
buffer is shorter than one 3-second window and when no window yields a
measurement; when the relative gate `> I - 20` keeps fewer than 3 window
values it falls back to the ungated set; otherwise it uses the gated set;
in both cases the result is `max 0 (p95 - p10)` of the surviving values. -/
theorem c5_thm :
    (∀ (meterI : ℕ → List ℚ → Except Unit ℚ) (x : List ℚ) (sr : ℕ),
      0 ≤ loudness_range_lra meterI x sr) ∧
    (∀ (meterI : ℕ → List ℚ → Except Unit ℚ) (x : List ℚ) (sr : ℕ),
      x.length < 3 * sr → loudness_range_lra meterI x sr = 0) ∧
    (∀ (meterI : ℕ → List ℚ → Except Unit ℚ) (x : List ℚ) (sr : ℕ),
      lraShortTerms meterI x sr = [] → loudness_range_lra meterI x sr = 0) ∧
    (∀ (meterI : ℕ → List ℚ → Except Unit ℚ) (x : List ℚ) (sr : ℕ),
      lraShortTerms meterI x sr ≠ [] →
      ((lraShortTerms meterI x sr).filter
          (fun v => decide (lraGateI meterI x sr - 20 < v))).length < 3 →
      loudness_range_lra meterI x sr =
        max 0 (percentile (lraShortTerms meterI x sr) 95 -
               percentile (lraShortTerms meterI x sr) 10)) ∧
    (∀ (meterI : ℕ → List ℚ → Except Unit ℚ) (x : List ℚ) (sr : ℕ),
      lraShortTerms meterI x sr ≠ [] →
      ¬ ((lraShortTerms meterI x sr).filter
          (fun v => decide (lraGateI meterI x sr - 20 < v))).length < 3 →
      loudness_range_lra meterI x sr =
        max 0 (percentile ((lraShortTerms meterI x sr).filter
                 (fun v => decide (lraGateI meterI x sr - 20 < v))) 95 -
               percentile ((lraShortTerms meterI x sr).filter
                 (fun v => decide (lraGateI meterI x sr - 20 < v))) 10)) := by
  refine ⟨?_, ?_, ?_, ?_, ?_⟩
  · intro meterI x sr
    unfold loudness_range_lra
    dsimp only
    split_ifs
    · exact le_refl 0
    · exact le_max_left 0 _
    · exact le_max_left 0 _
  · intro meterI x sr h
    have hsts : lraShortTerms meterI x sr = [] := by
      unfold lraShortTerms windowStarts
      rw [if_pos (Or.inr h)]
      rfl
    unfold loudness_range_lra
    rw [hsts]
    rfl
  · intro meterI x sr h
    unfold loudness_range_lra
    rw [h]
    rfl
  · intro meterI x sr h hlen
    unfold loudness_range_lra
    dsimp only
    rw [if_neg h, if_pos hlen]
  · intro meterI x sr h hlen
    unfold loudness_range_lra
    dsimp only
    rw [if_neg h, if_neg hlen]

/-- Concrete instantiation of `c5_thm`: a one-sample buffer at `sr = 1` is
shorter than one 3 s window and gets LRA `0`; a three-sample buffer yields
one window value, the gate keeps it but fewer than 3 survive, so the
ungated fallback percentile formula applies. -/
theorem c5_witness :
    loudness_range_lra (fun _ _ => Except.ok 0) [0] 1 = 0 ∧
    loudness_range_lra (fun _ _ => Except.ok 0) [1, 1, 1] 1 =
      max 0 (percentile (lraShortTerms (fun _ _ => Except.ok 0) [1, 1, 1] 1) 95 -
             percentile (lraShortTerms (fun _ _ => Except.ok 0) [1, 1, 1] 1) 10) :=
  by
  have hsts : lraShortTerms (fun _ _ => Except.ok 0) [1, 1, 1] 1 = [0] := by
    unfold lraShortTerms windowStarts
    norm_num [List.range_succ, List.filterMap_cons, Except.toOption]
  refine ⟨c5_thm.2.1 (fun _ _ => Except.ok 0) [0] 1 (by norm_num),
    c5_thm.2.2.2.1 (fun _ _ => Except.ok 0) [1, 1, 1] 1 ?_ ?_⟩
  · rw [hsts]
    exact List.cons_ne_nil 0 []
  · rw [hsts]
    exact lt_of_le_of_lt (List.length_filter_le _ _) (by norm_num)

/-! ### C2: last balanced JSON block -/

lemma braceDelta_nil : braceDelta [] = 0 := rfl

lemma braceDelta_cons_open (l : List Char) : braceDelta ('{' :: l) = 1 + braceDelta l := by
  unfold braceDelta
  rw [List.count_cons_self, List.count_cons_of_ne (by decide)]
  push_cast
  ring

lemma braceDelta_cons_close (l : List Char) : braceDelta ('}' :: l) = braceDelta l - 1 := by
  unfold braceDelta
  rw [List.count_cons_self, List.count_cons_of_ne (by decide)]
  push_cast
  ring

lemma braceDelta_cons_other {c : Char} (h1 : c ≠ '{') (h2 : c ≠ '}') (l : List Char) :
    braceDelta (c :: l) = braceDelta l := by
  unfold braceDelta
  rw [List.count_cons_of_ne (Ne.symm h1), List.count_cons_of_ne (Ne.symm h2)]

section JsonScan

variable {J : Type} (parse : List Char → Option J) (cs : List Char)

lemma jsonStep_open_zero (i : ℕ) (last : Option J) :
    jsonStep parse cs (none, 0, last) (i, '{') = (some i, 1, last) := by
  simp [jsonStep]

lemma jsonStep_open_pos (s d i : ℕ) (last : Option J) (hd : d ≠ 0) :
    jsonStep parse cs (some s, d, last) (i, '{') = (some s, d + 1, last) := by
  simp [jsonStep, hd]

lemma jsonStep_close_zero (i : ℕ) (last : Option J) :
    jsonStep parse cs (none, 0, last) (i, '}') = (none, 0, last) := by
  simp [jsonStep]

lemma jsonStep_close_one (s i : ℕ) (last : Option J) :
    jsonStep parse cs (some s, 1, last) (i, '}')
      = (none, 0, updateLast last (parse ((cs.drop s).take (i + 1 - s)))) := by
  simp [jsonStep]

lemma jsonStep_close_big (s d i : ℕ) (last : Option J) (hd : 1 < d) :
    jsonStep parse cs (some s, d, last) (i, '}') = (some s, d - 1, last) := by
  have h0 : 0 < d := by omega
  have h1 : ¬(d - 1 = 0) := by omega
  simp [jsonStep, h0, h1]

lemma jsonStep_other (st : Option ℕ × ℕ × Option J) (i : ℕ) {c : Char}
    (h1 : c ≠ '{') (h2 : c ≠ '}') : jsonStep parse cs st (i, c) = st := by
  obtain ⟨a, d, last⟩ := st
  simp [jsonStep, h1, h2]

/-- Scanning text with no opening brace leaves the closed scanner state
unchanged (a stray `}` at depth 0 is ignored by the loop). -/
lemma foldl_noOpen (f : List Char) (hf : '{' ∉ f) :
    ∀ (k : ℕ) (last : Option J),
      (List.enumFrom k f).foldl (jsonStep parse cs) (none, 0, last) = (none, 0, last) := by
  induction f with
  | nil => intro k last; rfl
  | cons c t ih =>
    intro k last
    have hc : c ≠ '{' := by
      rintro rfl
      exact hf (List.mem_cons_self _ _)
    have ht : '{' ∉ t := fun h => hf (List.mem_cons_of_mem _ h)
    rw [List.enumFrom_cons, List.foldl_cons]
    by_cases hcc : c = '}'
    · subst hcc
      rw [jsonStep_close_zero]
      exact ih ht (k + 1) last
    · rw [jsonStep_other parse cs _ _ hc hcc]
      exact ih ht (k + 1) last

/-- Running the scanner over the remainder of a block (depth starts at
`d > 0`, never returns to 0 strictly inside, ends at 0) closes the block:
the chunk `cs[s .. k+len-1]` is parsed and retained on success. -/
lemma foldl_block_run :
    ∀ (t : List Char) (d s k : ℕ) (last : Option J),
      0 < d →
      (∀ n, n < t.length → 0 < (d:ℤ) + braceDelta (t.take n)) →
      (d:ℤ) + braceDelta t = 0 →
      (List.enumFrom k t).foldl (jsonStep parse cs) (some s, d, last)
        = (none, 0, updateLast last (parse ((cs.drop s).take (k + t.length - s)))) := by
  intro t
  induction t with
  | nil =>
    intro d s k last hd hpre htot
    exfalso
    rw [braceDelta_nil] at htot
    omega
  | cons c t ih =>
    intro d s k last hd hpre htot
    rw [List.enumFrom_cons, List.foldl_cons]
    have harith : k + 1 + t.length - s = k + (c :: t).length - s := by
      simp only [List.length_cons]
      omega
    by_cases hc : c = '{'
    · subst hc
      rw [jsonStep_open_pos parse cs s d k last hd.ne']
      have h1 : ∀ n, n < t.length → 0 < ((d + 1 : ℕ):ℤ) + braceDelta (t.take n) := by
        intro n hn
        have h := hpre (n + 1) (by simp only [List.length_cons]; omega)
        rw [List.take_succ_cons, braceDelta_cons_open] at h
        push_cast
        linarith
      have h2 : ((d + 1 : ℕ):ℤ) + braceDelta t = 0 := by
        rw [braceDelta_cons_open] at htot
        push_cast
        linarith
      have hres := ih (d + 1) s (k + 1) last (Nat.succ_pos d) h1 h2
      rw [hres, harith]
    · by_cases hcc : c = '}'
      · subst hcc
        rcases Nat.lt_or_ge 1 d with hd1 | hd1
        · rw [jsonStep_close_big parse cs s d k last hd1]
          have hcast : ((d - 1 : ℕ):ℤ) = (d:ℤ) - 1 := by omega
          have h1 : ∀ n, n < t.length → 0 < ((d - 1 : ℕ):ℤ) + braceDelta (t.take n) := by
            intro n hn
            have h := hpre (n + 1) (by simp only [List.length_cons]; omega)
            rw [List.take_succ_cons, braceDelta_cons_close] at h
            rw [hcast]
            linarith
          have h2 : ((d - 1 : ℕ):ℤ) + braceDelta t = 0 := by
            rw [braceDelta_cons_close] at htot
            rw [hcast]
            linarith
          have hres := ih (d - 1) s (k + 1) last (by omega) h1 h2
          rw [hres, harith]
        · have hd1' : d = 1 := by omega
          subst hd1'
          have ht : t = [] := by
            by_contra hne
            have hlen : 0 < t.length := List.length_pos.mpr hne
            have h := hpre 1 (by simp only [List.length_cons]; omega)
            rw [show (1:ℕ) = 0 + 1 from rfl, List.take_succ_cons, List.take_zero,
              braceDelta_cons_close, braceDelta_nil] at h
            norm_num at h
          subst ht
          rw [jsonStep_close_one]
          simp only [List.enumFrom_nil, List.foldl_nil, List.length_cons, List.length_nil]
      · rw [jsonStep_other parse cs _ _ hc hcc]
        have h1 : ∀ n, n < t.length → 0 < (d:ℤ) + braceDelta (t.take n) := by
          intro n hn
          have h := hpre (n + 1) (by simp only [List.length_cons]; omega)
          rw [List.take_succ_cons, braceDelta_cons_other hc hcc] at h
          exact h
        have h2 : (d:ℤ) + braceDelta t = 0 := by
          rw [braceDelta_cons_other hc hcc] at htot
          exact htot
        have hres := ih d s (k + 1) last hd h1 h2
        rw [hres, harith]

/-- Scanning a balanced block from the closed state parses exactly that
block and retains the result on success. -/
lemma foldl_balanced (pre b suf : List Char) (last : Option J)
    (hcs : cs = pre ++ b ++ suf) (hb : BalancedBlock b) :
    (List.enumFrom pre.length b).foldl (jsonStep parse cs) (none, 0, last)
      = (none, 0, updateLast last (parse b)) := by
  obtain ⟨hlen2, htot, hpre⟩ := hb
  obtain ⟨c, t, rfl⟩ : ∃ c t, b = c :: t := by
    cases b with
    | nil => simp at hlen2
    | cons c t => exact ⟨c, t, rfl⟩
  have hc : c = '{' := by
    have h1 := hpre 1 (by simp only [List.length_cons] at hlen2 ⊢; omega) (by norm_num)
    rw [show (1:ℕ) = 0 + 1 from rfl, List.take_succ_cons, List.take_zero] at h1
    by_contra hcc
    by_cases hc2 : c = '}'
    · subst hc2
      rw [braceDelta_cons_close, braceDelta_nil] at h1
      norm_num at h1
    · rw [braceDelta_cons_other hcc hc2, braceDelta_nil] at h1
      norm_num at h1
  subst hc
  rw [List.enumFrom_cons, List.foldl_cons, jsonStep_open_zero]
  have h1 : ∀ n, n < t.length → 0 < ((1:ℕ):ℤ) + braceDelta (t.take n) := by
    intro n hn
    have h := hpre (n + 1) (by simp only [List.length_cons]; omega) (Nat.succ_pos n)
    rw [List.take_succ_cons, braceDelta_cons_open] at h
    push_cast
    linarith
  have h2 : ((1:ℕ):ℤ) + braceDelta t = 0 := by
    rw [braceDelta_cons_open] at htot
    push_cast
    linarith
  have hres := foldl_block_run parse cs t 1 pre.length (pre.length + 1) last one_pos h1 h2
  rw [hres]
  have hdrop : cs.drop pre.length = ('{' :: t) ++ suf := by
    rw [hcs, List.append_assoc]
    exact List.drop_left _ _
  have hlen : pre.length + 1 + t.length - pre.length = ('{' :: t).length := by
    simp only [List.length_cons]
    omega
  rw [hdrop, hlen, List.take_left]

/-- Scanning interleaved filler and balanced blocks folds `updateLast` over
the blocks' parse results. -/
lemma extract_aux :
    ∀ (segs : List (List Char × List Char)) (tail pre : List Char) (last : Option J),
      cs = pre ++ assemble segs tail →
      (∀ p ∈ segs, '{' ∉ p.1 ∧ BalancedBlock p.2) →
      '{' ∉ tail →
      ((assemble segs tail).enumFrom pre.length).foldl (jsonStep parse cs) (none, 0, last)
        = (none, 0, (segs.map (fun p => parse p.2)).foldl updateLast last) := by
  intro segs
  induction segs with
  | nil =>
    intro tail pre last hcs hsegs htail
    exact foldl_noOpen parse cs tail htail pre.length last
  | cons fb rest ih =>
    intro tail pre last hcs hsegs htail
    obtain ⟨f, b⟩ := fb
    have hf : '{' ∉ f := (hsegs (f, b) (List.mem_cons_self _ _)).1
    have hb : BalancedBlock b := (hsegs (f, b) (List.mem_cons_self _ _)).2
    have hrest : ∀ p ∈ rest, '{' ∉ p.1 ∧ BalancedBlock p.2 := fun p hp =>
      hsegs p (List.mem_cons_of_mem _ hp)
    show ((f ++ b ++ assemble rest tail).enumFrom pre.length).foldl (jsonStep parse cs)
        (none, 0, last) = _
    rw [List.enumFrom_append, List.enumFrom_append, List.foldl_append, List.foldl_append,
      foldl_noOpen parse cs f hf]
    have hcs' : cs = (pre ++ f) ++ b ++ assemble rest tail := by
      rw [hcs]
      simp [assemble, List.append_assoc]
    have hofs : pre.length + f.length = (pre ++ f).length := (List.length_append _ _).symm
    rw [hofs, foldl_balanced parse cs (pre ++ f) b (assemble rest tail) last hcs' hb]
    have hofs2 : pre.length + (f ++ b).length = ((pre ++ f) ++ b).length := by
      simp [List.length_append, Nat.add_assoc]
    rw [hofs2, ih tail ((pre ++ f) ++ b) (updateLast last (parse b)) hcs' hrest htail]
    rfl

end JsonScan

/-- C2: on diagnostic text consisting of balanced-brace blocks separated by
brace-free filler, `_extract_last_json_block` returns the fold of
"keep the last successful parse" over the blocks in order: blocks that fail
to parse are skipped and the last successfully parsed block wins. -/
theorem c2_thm {J : Type} (parse : List Char → Option J)
    (segs : List (List Char × List Char)) (tail : List Char)
    (hsegs : ∀ p ∈ segs, '{' ∉ p.1 ∧ BalancedBlock p.2)
    (htail : '{' ∉ tail) :
    extract_last_json_block parse (assemble segs tail)
      = lastSuccess (segs.map (fun p => parse p.2)) := by
  unfold extract_last_json_block lastSuccess
  rw [List.enum_eq_enumFrom]
  have h := extract_aux parse (assemble segs tail) segs tail [] none rfl hsegs htail
  have h2 := congrArg (fun st : Option ℕ × ℕ × Option J => st.2.2) h
  exact h2

/-- Concrete instantiation of `c2_thm`: text containing the blocks
`{"a":1}` then `{"b":2}` (with every chunk parsed by the identity parser)
yields the second block. -/
theorem c2_witness :
    extract_last_json_block (fun l => some l)
        (assemble [([], ['{', '"', 'a', '"', ':', '1', '}']),
                   ([' '], ['{', '"', 'b', '"', ':', '2', '}'])] [])
      = some ['{', '"', 'b', '"', ':', '2', '}'] := by
  have h := c2_thm (fun l => some l)
    [([], ['{', '"', 'a', '"', ':', '1', '}']),
     ([' '], ['{', '"', 'b', '"', ':', '2', '}'])] []
    (by decide) (by decide)
  rw [h]
  rfl

/-! ### C7: measurement injection and the degraded path -/

lemma infixHead {α : Type} (n rest : List α) : n <:+: n ++ rest := ⟨[], rest, by simp⟩

lemma infixLift {α : Type} (l₁ : List α) {n l₂ : List α} (h : n <:+: l₂) :
    n <:+: l₁ ++ l₂ := by
  obtain ⟨s, t, rfl⟩ := h
  exact ⟨l₁ ++ s, t, by simp [List.append_assoc]⟩

lemma subLNAll_nil (rep : List Char) (fuel : ℕ) : subLNAll rep fuel [] = [] := by
  cases fuel with
  | zero => rfl
  | succ m => simp [subLNAll, findLNMatch]

/-- C7 counterexample to the claim as stated, on the builder-shaped chain
`anull,loudnorm=I=-14.0:...:print_format=summary`: (i) when the first pass's
diagnostics contain the successfully parsed but empty block `{}` (falsy
under Python's `if js:`), measurement injection is skipped and the second
pass runs the original chain — so "when a block does parse, the normalizer
stage is rewritten" fails; (ii) the stage the rewrite would produce for a
parsed report is built from the report alone: the original chain's target
value `-14.0` is present in the original chain but absent from the
rewritten chain, so "rewritten to include the original targets" fails. -/
theorem c7_counterexample :
    (ffmpeg_loudnorm_two_pass (fun _ => ⟨0, ['{', '}']⟩) (fun _ => some [])
        "anull,loudnorm=I=-14.0:TP=-1.2:LRA=6.0:print_format=summary".toList
      = ([force_print_format_json
            "anull,loudnorm=I=-14.0:TP=-1.2:LRA=6.0:print_format=summary".toList,
          "anull,loudnorm=I=-14.0:TP=-1.2:LRA=6.0:print_format=summary".toList],
         Except.ok ())) ∧
    (containsSub "-14.0".toList
        (subLNAll (measuredString [("input_i", "-23.0")])
          "anull,loudnorm=I=-14.0:TP=-1.2:LRA=6.0:print_format=summary".toList.length
          "anull,loudnorm=I=-14.0:TP=-1.2:LRA=6.0:print_format=summary".toList) = false) ∧
    (containsSub "-14.0".toList
        "anull,loudnorm=I=-14.0:TP=-1.2:LRA=6.0:print_format=summary".toList = true) := by
  refine ⟨rfl, by decide, by decide⟩

/-- C7 amended: in the two-pass normalizer, (i) when no structured block
parses from the first pass's diagnostics, and likewise (ii) when the parsed
block is the empty object (Python's `if js:` truthiness), measurement
injection is skipped: the second pass is invoked with the original chain
unchanged and the request outcome depends only on the engine's exit codes —
never on the parse outcome; (iii) when a nonempty block `j` parses, the
second pass is invoked with the chain rewritten by the loudnorm
substitution; (iv) when the match spans exactly the final loudnorm stage,
that stage is replaced by `measuredString j`, a function of the parsed
report alone; (v) the replacement's `I` value is the report's measured
`input_i` (or the hard-coded default) whenever the report has no `target_i`
key — the original chain's targets are never read; (vi) the replacement
carries the target keys and all five measured/offset keys. -/
theorem c7_thm :
    (∀ (engine : List Char → EngineOut) (parse : List Char → Option Js) (chain : List Char),
      containsSub "loudnorm".toList chain = true →
      (engine (force_print_format_json chain)).exitCode = 0 →
      extract_last_json_block parse (engine (force_print_format_json chain)).errText = none →
      ffmpeg_loudnorm_two_pass engine parse chain
        = ([force_print_format_json chain, chain],
           if (engine chain).exitCode ≠ 0
           then Except.error ("ffmpeg pass2 failed: ".toList ++ (engine chain).errText)
           else Except.ok ())) ∧
    (∀ (engine : List Char → EngineOut) (parse : List Char → Option Js) (chain : List Char),
      containsSub "loudnorm".toList chain = true →
      (engine (force_print_format_json chain)).exitCode = 0 →
      extract_last_json_block parse (engine (force_print_format_json chain)).errText
          = some [] →
      ffmpeg_loudnorm_two_pass engine parse chain
        = ([force_print_format_json chain, chain],
           if (engine chain).exitCode ≠ 0
           then Except.error ("ffmpeg pass2 failed: ".toList ++ (engine chain).errText)
           else Except.ok ())) ∧
    (∀ (engine : List Char → EngineOut) (parse : List Char → Option Js) (chain : List Char)
      (j : Js),
      containsSub "loudnorm".toList chain = true →
      (engine (force_print_format_json chain)).exitCode = 0 →
      extract_last_json_block parse (engine (force_print_format_json chain)).errText = some j →
      j ≠ [] →
      (ffmpeg_loudnorm_two_pass engine parse chain).1
        = [force_print_format_json chain, subLNAll (measuredString j) chain.length chain]) ∧
    (∀ (j : Js) (chain : List Char) (i g f : ℕ),
      findLNMatch chain = some (i, g, f) → i + f = chain.length →
      subLNAll (measuredString j) chain.length chain = chain.take i ++ measuredString j) ∧
    (∀ j : Js,
      j.find? (fun p => decide (p.1 = "target_i")) = none →
      ("loudnorm=I=".toList ++ (jsGet j "input_i" "-14").toList).isPrefixOf
          (measuredString j) = true) ∧
    (∀ j : Js,
      "loudnorm=I=".toList.isPrefixOf (measuredString j) = true ∧
      ":measured_I=".toList <:+: measuredString j ∧
      ":measured_LRA=".toList <:+: measuredString j ∧
      ":measured_TP=".toList <:+: measuredString j ∧
      ":measured_thresh=".toList <:+: measuredString j ∧
      ":offset=".toList <:+: measuredString j) := by
  refine ⟨?_, ?_, ?_, ?_, ?_, ?_⟩
  · intro engine parse chain hcont hexit hparse
    have hcont' : containsSub ['l', 'o', 'u', 'd', 'n', 'o', 'r', 'm'] chain = true := hcont
    simp [ffmpeg_loudnorm_two_pass, hcont', hexit, hparse]
  · intro engine parse chain hcont hexit hparse
    have hcont' : containsSub ['l', 'o', 'u', 'd', 'n', 'o', 'r', 'm'] chain = true := hcont
    simp [ffmpeg_loudnorm_two_pass, hcont', hexit, hparse]
  · intro engine parse chain j hcont hexit hparse hne
    have hcont' : containsSub ['l', 'o', 'u', 'd', 'n', 'o', 'r', 'm'] chain = true := hcont
    simp [ffmpeg_loudnorm_two_pass, hcont', hexit, hparse, hne]
  · intro j chain i g f hfind hlen
    have hne : chain ≠ [] := by
      rintro rfl
      exact Option.noConfusion (hfind.symm.trans rfl)
    obtain ⟨m, hm⟩ : ∃ m, chain.length = m + 1 := by
      have := List.length_pos.mpr hne
      exact ⟨chain.length - 1, by omega⟩
    rw [hm]
    have hdrop : chain.drop (i + f) = [] := by
      rw [hlen]
      exact List.drop_length _
    simp only [subLNAll, hfind, hdrop, subLNAll_nil, List.append_nil]
  · intro j hfind
    have hv : jsGet j "target_i" (jsGet j "input_i" "-14") = jsGet j "input_i" "-14" := by
      unfold jsGet
      rw [hfind]
    rw [List.isPrefixOf_iff_prefix]
    unfold measuredString
    rw [hv]
    simp only [List.append_assoc]
    rw [← List.append_assoc]
    exact List.prefix_append _ _
  · intro j
    refine ⟨?_, ?_, ?_, ?_, ?_, ?_⟩
    · rw [List.isPrefixOf_iff_prefix]
      unfold measuredString
      simp only [List.append_assoc]
      exact List.prefix_append _ _
    all_goals
      unfold measuredString
      simp only [List.append_assoc]
      repeat first | exact infixHead _ _ | apply infixLift

/-- Concrete instantiation of `c7_thm`: on the builder-shaped chain
`anull,...,loudnorm=...:print_format=summary`, a parse failure and a parsed
empty block both leave the second pass with the original chain, a parsed
nonempty block rewrites it, the substitution replaces exactly the final
loudnorm stage, the report without a `target_i` key puts its measured
`input_i` value into the stage's `I`, and the measured keys are present. -/
theorem c7_witness :
    (ffmpeg_loudnorm_two_pass (fun _ => ⟨0, []⟩) (fun _ => none)
        "anull,loudnorm=I=-14.0:TP=-1.2:LRA=6.0:print_format=summary".toList
      = ([force_print_format_json
            "anull,loudnorm=I=-14.0:TP=-1.2:LRA=6.0:print_format=summary".toList,
          "anull,loudnorm=I=-14.0:TP=-1.2:LRA=6.0:print_format=summary".toList],
         Except.ok ())) ∧
    (ffmpeg_loudnorm_two_pass (fun _ => ⟨0, ['{', '}']⟩) (fun _ => some [])
        "anull,loudnorm=I=-14.0:TP=-1.2:LRA=6.0:print_format=summary".toList
      = ([force_print_format_json
            "anull,loudnorm=I=-14.0:TP=-1.2:LRA=6.0:print_format=summary".toList,
          "anull,loudnorm=I=-14.0:TP=-1.2:LRA=6.0:print_format=summary".toList],
         Except.ok ())) ∧
    ((ffmpeg_loudnorm_two_pass (fun _ => ⟨0, ['{', 'x', '}']⟩)
        (fun _ => some [("input_i", "-23.0")])
        "anull,loudnorm=I=-14.0:TP=-1.2:LRA=6.0:print_format=summary".toList).1
      = [force_print_format_json
           "anull,loudnorm=I=-14.0:TP=-1.2:LRA=6.0:print_format=summary".toList,
         subLNAll (measuredString [("input_i", "-23.0")])
           "anull,loudnorm=I=-14.0:TP=-1.2:LRA=6.0:print_format=summary".toList.length
           "anull,loudnorm=I=-14.0:TP=-1.2:LRA=6.0:print_format=summary".toList]) ∧
    (subLNAll (measuredString [("input_i", "-23.0")])
        "anull,loudnorm=I=-14.0:TP=-1.2:LRA=6.0:print_format=summary".toList.length
        "anull,loudnorm=I=-14.0:TP=-1.2:LRA=6.0:print_format=summary".toList
      = "anull,".toList ++ measuredString [("input_i", "-23.0")]) ∧
    (("loudnorm=I=".toList ++
        (jsGet [("input_i", "-23.0")] "input_i" "-14").toList).isPrefixOf
        (measuredString [("input_i", "-23.0")]) = true) ∧
    (":measured_I=".toList <:+: measuredString [("input_i", "-23.0")]) := by
  refine ⟨?_, ?_, ?_, ?_, ?_, ?_⟩
  · have h := c7_thm.1 (fun _ => ⟨0, []⟩) (fun _ => none)
      "anull,loudnorm=I=-14.0:TP=-1.2:LRA=6.0:print_format=summary".toList
      (by decide) rfl rfl
    rw [h]
    rfl
  · have h := c7_thm.2.1 (fun _ => ⟨0, ['{', '}']⟩) (fun _ => some [])
      "anull,loudnorm=I=-14.0:TP=-1.2:LRA=6.0:print_format=summary".toList
      (by decide) rfl rfl
    rw [h]
    rfl
  · exact c7_thm.2.2.1 (fun _ => ⟨0, ['{', 'x', '}']⟩) (fun _ => some [("input_i", "-23.0")])
      "anull,loudnorm=I=-14.0:TP=-1.2:LRA=6.0:print_format=summary".toList
      [("input_i", "-23.0")] (by decide) rfl rfl (List.cons_ne_nil _ _)
  · have h := c7_thm.2.2.2.1 [("input_i", "-23.0")]
      "anull,loudnorm=I=-14.0:TP=-1.2:LRA=6.0:print_format=summary".toList
      6 46 53 (by decide) (by decide)
    rw [h]
    rfl
  · exact c7_thm.2.2.2.2.1 [("input_i", "-23.0")] rfl
  · exact (c7_thm.2.2.2.2.2 [("input_i", "-23.0")]).2.1

end Analyzer
